import Mathlib

/-!
Shallow embedding of `next-layout` (`src/layout.tsx`): a layout-composition
and data-scoping engine for pages.  JavaScript data values are modelled by
the inductive `Value`; JavaScript objects are association lists with unique
keys (JS objects cannot hold a key twice), and property assignment, lookup,
spread (`{...a, ...b}`), optional chaining (`a?.[k]`) and nullish
coalescing (`a ?? b`) are modelled by `setKey`, `lookupD`/`getKey`,
`jsSpread`, `jsOptIndex` and `jsCoalesce`.  React elements are an abstract
type parameter `A`; fragments (`<>...</>`) are transparent wrappers and are
modelled as the identity.  Exotic JS behaviours never reachable from this
data flow of the library (numeric indexing into strings, prototype lookups) are
outside the embedded value fragment.
-/

/-- A JavaScript runtime value, as far as the data flow of the library needs:
`null`, `undefined`, booleans, numbers, strings and plain objects. -/
inductive Value where
  | vNull
  | vUndefined
  | vBool (b : Bool)
  | vNum (n : Int)
  | vStr (s : String)
  | vObj (fields : List (String × Value))

/-- Property lookup on an association list with a default for a missing
key; JS property access returns `undefined` when the key is absent. -/
def lookupD {α : Type} : List (String × α) → String → α → α
  | [], _, d => d
  | p :: fs, k, d => if p.1 = k then p.2 else lookupD fs k d

/-- Property assignment on an association list: update the value in place
when the key is present, append the pair otherwise — exactly how JS
property assignment behaves on an object. -/
def setKey {α : Type} : List (String × α) → String → α → List (String × α)
  | [], k, v => [(k, v)]
  | p :: fs, k, v => if p.1 = k then (k, v) :: fs else p :: setKey fs k v

/-- Object property lookup specialised to `Value`: a missing key reads as
`undefined`. -/
def getKey (fs : List (String × Value)) (k : String) : Value :=
  lookupD fs k .vUndefined

/-- The top-level keys of a value: the field names of an object, nothing
for any other value. -/
def topKeys : Value → List String
  | .vObj fs => fs.map Prod.fst
  | _ => []

/-- Is the value `null` or `undefined` (the two values JS `== null`
matches, and the two values `??` skips)? -/
def isNullish : Value → Bool
  | .vNull => true
  | .vUndefined => true
  | _ => false

/-- JS nullish coalescing `a ?? b`. -/
def jsCoalesce (a b : Value) : Value :=
  if isNullish a then b else a

/-- JS property read `v[k]`: field lookup on objects, `undefined` on other
values in the embedded fragment. -/
def jsIndex (v : Value) (k : String) : Value :=
  match v with
  | .vObj fs => getKey fs k
  | _ => .vUndefined

/-- JS optional-chained read `v?.[k]`: `undefined` when `v` is nullish,
otherwise an ordinary property read. -/
def jsOptIndex (v : Value) (k : String) : Value :=
  if isNullish v then .vUndefined else jsIndex v k

/-- JS object spread `{...base, ...v}`: the fields of an object are assigned
into `base` left to right; spreading `null`, `undefined` or a primitive
adds nothing. -/
def jsSpread (base : List (String × Value)) (v : Value) : List (String × Value) :=
  match v with
  | .vObj fs => fs.foldl (fun acc p => setKey acc p.1 p.2) base
  | _ => base

/-- Removal of one property, as done by JS rest-destructuring
`const { [k]: x, ...rest } = obj`. -/
def removeKey (fs : List (String × Value)) (k : String) : List (String × Value) :=
  fs.filter (fun p => ¬(p.1 = k))

/-- The keys of an association list are pairwise distinct — the invariant
every JS object satisfies. -/
def keysNodup {α : Type} (fs : List (String × α)) : Prop :=
  (fs.map Prod.fst).Nodup

/-- The errors this library raises (`createError` kinds), carrying the
structured diagnostic data the source attaches to them. -/
inductive LayoutError where
  | layoutProviderMissing
  | dataUnavailable (layoutName : String) (location : String)
  | combinedLayoutNameConflict (duplicated : List String)

/-- The configuration object of `createLayout`: a unique `name`, an optional
render wrapper `getLayout(page, data)` and an optional data fetcher
`getData(ctx)`.  `C` is the opaque fetch-context type handed through from
the host; `A` is the type of rendered content. -/
structure CreateLayoutOptions (C A : Type) where
  name : String
  getLayout : Option (A → Value → A) := none
  getData : Option (C → Value) := none

/-- Source `layout.tsx` line 54: the namespace key derived from a layout name. -/
def layoutKey (name : String) : String :=
  "__layout:" ++ name

/-- Source `layout.tsx` line 55: a layout is treated as combined when its name
starts with the string `__combined` (the `options.name.startsWith` test against `__combined`,
embedded as the character-level prefix test that `startsWith` implements). -/
def isCombinedLayout (name : String) : Bool :=
  "__combined".data.isPrefixOf name.data

/-- The result of `options.getData?.(ctx)`: `undefined` when no `getData`
was supplied. -/
def runGetData {C A : Type} (opts : CreateLayoutOptions C A) (ctx : C) : Value :=
  match opts.getData with
  | some f => f ctx
  | none => .vUndefined

/-- Source `layout.tsx` line 112/126: the value stored under the namespace key of the layout,
`layoutStaticProps?.[layoutKey] ?? layoutStaticProps ?? null`. -/
def storedEntry {C A : Type} (opts : CreateLayoutOptions C A) (ctx : C) : Value :=
  let d := runGetData opts ctx
  jsCoalesce (jsOptIndex d (layoutKey opts.name)) (jsCoalesce d .vNull)

/-- Source `layout.tsx` lines 155-159: the default base fetch function, returning
`{ props: {} }`. -/
def defaultGetProps {C : Type} : C → Value :=
  fun _ => .vObj [("props", .vObj [])]

/-- Source `layout.tsx` lines 103-116, `wrapGetStaticProps`: run the wrapped base
fetch (`?? {}`), run the `getData` of this layout, and return the base result
with its `props` bag extended by the namespaced entry of this layout. -/
def wrapGetStaticProps {C A : Type} (opts : CreateLayoutOptions C A)
    (wrapped : C → Value) (ctx : C) : Value :=
  let staticProps := jsCoalesce (wrapped ctx) (.vObj [])
  let inner := setKey (jsSpread [] (jsCoalesce (jsIndex staticProps "props") (.vObj [])))
    (layoutKey opts.name) (storedEntry opts ctx)
  .vObj (setKey (jsSpread [] staticProps) "props" (.vObj inner))

/-- Source `layout.tsx` lines 118-130, `wrapGetServerSideProps`: textually the
same merge as `wrapGetStaticProps`, wrapping the request-time hook. -/
def wrapGetServerSideProps {C A : Type} (opts : CreateLayoutOptions C A)
    (wrapped : C → Value) (ctx : C) : Value :=
  let serverSideProps := jsCoalesce (wrapped ctx) (.vObj [])
  let inner := setKey (jsSpread [] (jsCoalesce (jsIndex serverSideProps "props") (.vObj [])))
    (layoutKey opts.name) (storedEntry opts ctx)
  .vObj (setKey (jsSpread [] serverSideProps) "props" (.vObj inner))

/-- Source `layout.tsx` lines 77-91: the overlay the render-dispatch publishes as
the ambient data-context of the subtree: for a `__combined`-named layout the
slice is spread into the current context, otherwise it is stored under the
own key of the layout. -/
def overlayCtx {C A : Type} (opts : CreateLayoutOptions C A)
    (currCtx : List (String × Value)) (layoutProps : Value) : List (String × Value) :=
  if isCombinedLayout opts.name then jsSpread currCtx layoutProps
  else setKey currCtx (layoutKey opts.name) layoutProps

/-- Source `layout.tsx` lines 77-98, the `getLayout` render-dispatch attached by
`wrapPage`: destructure the slice of this layout out of `pageProps`, publish
the updated ambient context for the subtree, and render the wrapper (if
any) around the component rendered with the remaining props.  Returns the
published context together with the rendered content. -/
def getLayoutDispatch {C A : Type} (opts : CreateLayoutOptions C A)
    (comp : List (String × Value) → A) (pageProps : List (String × Value))
    (currCtx : List (String × Value)) : List (String × Value) × A :=
  let layoutProps := getKey pageProps (layoutKey opts.name)
  let rest := removeKey pageProps (layoutKey opts.name)
  let ctx := overlayCtx opts currCtx layoutProps
  (ctx, match opts.getLayout with
    | some g => g (comp rest) layoutProps
    | none => comp rest)

/-- The component returned by `wrapPage`: a render function (taking the
ambient provider flag and the props) plus the `getLayout` dispatcher
attached to it as metadata (`Object.assign`, lines 62-99). -/
structure WrappedPage (C A : Type) where
  render : Bool → List (String × Value) → Except LayoutError A
  getLayout : (List (String × Value) → A) → List (String × Value) →
    List (String × Value) → List (String × Value) × A

/-- Source `layout.tsx` lines 61-101, `wrapPage`: the returned component throws
`LAYOUT_PROVIDER_NOT_IMPLEMENTED` when rendered with the provider flag
unset, renders the page unchanged otherwise, and carries the dispatch
operation as metadata. -/
def wrapPage {C A : Type} (opts : CreateLayoutOptions C A)
    (page : List (String × Value) → A) : WrappedPage C A :=
  { render := fun providerFlag props =>
      if providerFlag then .ok (page props) else .error .layoutProviderMissing,
    getLayout := getLayoutDispatch opts }

/-- Source `layout.tsx` lines 259-265, `LayoutProvider`: publishes the enablement
flag (context value `true`) over the subtree, so the wrapped page renders
with the flag set. -/
def LayoutProvider {C A : Type} (page : WrappedPage C A)
    (pageProps : List (String × Value)) : Except LayoutError A :=
  page.render true pageProps

/-- Rendering a wrapped page with no provider above it: the enablement
context reads its default value `false` (line 9). -/
def renderOutsideProvider {C A : Type} (page : WrappedPage C A)
    (pageProps : List (String × Value)) : Except LayoutError A :=
  page.render false pageProps

/-- Source `layout.tsx` lines 132-151, `useData`: read the ambient data-context;
if the slice of this layout reads `== null` (absent, `null` or `undefined`), throw
`DATA_UNAVAILABLE` carrying the layout name and the current router
pathname; otherwise return the slice. -/
def useData {C A : Type} (opts : CreateLayoutOptions C A)
    (ctx : List (String × Value)) (pathname : String) : Except LayoutError Value :=
  let v := getKey ctx (layoutKey opts.name)
  if isNullish v then .error (.dataUnavailable opts.name pathname) else .ok v

/-- The Next.js host hands the `props` bag of a fetch result to the page
as its `pageProps`. -/
def pagePropsOf (r : Value) : List (String × Value) :=
  match jsIndex r "props" with
  | .vObj fs => fs
  | _ => []

/-- Source `layout.tsx` lines 209-217: the `getLayout` of the combined layout —
`reduceRight` over the constituents, seeded with the page content, so the
last-declared layout wraps innermost; the wrapper of each constituent (when
present) receives its own slice `data[layoutKey]`.  The `<>...</>`
fragments the source inserts are transparent and modelled as identity. -/
def combinedGetLayout {C A : Type} (layouts : List (CreateLayoutOptions C A))
    (page : A) (data : Value) : A :=
  layouts.foldr
    (fun l element =>
      match l.getLayout with
      | some g => g element (jsIndex data (layoutKey l.name))
      | none => element)
    page

/-- Source `layout.tsx` line 224: the contribution of one constituent,
`(await layoutOptions.getData?.(ctx)) ?? null`. -/
def fetchSlice {C A : Type} (l : CreateLayoutOptions C A) (ctx : C) : Value :=
  jsCoalesce (runGetData l ctx) .vNull

/-- Source `layout.tsx` lines 219-229: the `getData` of the combined layout —
`Promise.all` over the constituents (each result keyed by that
own namespace key of that constituent), then `Object.assign({}, ...results)`
left to right.  `Promise.all` returns results in input order, so the merge
input is the in-order slice list (see `resolveInOrder` for the
completion-order model). -/
def combinedGetData {C A : Type} (layouts : List (CreateLayoutOptions C A))
    (ctx : C) : Value :=
  .vObj (layouts.foldl
    (fun acc l => setKey acc (layoutKey l.name) (fetchSlice l ctx)) [])

/-- The completion model of `Promise.all`: pending slots start
unresolved, and each step of the `order` list resolves slot `j` with the
value of the `j`-th promise.  `Promise.all` stores every result at its input
index, whatever the completion order. -/
def resolveInOrder (ps : Nat → Value) (order : List Nat) : Nat → Option Value :=
  order.foldl (fun acc j => Function.update acc j (some (ps j))) (fun _ => .none)

/-- Source `layout.tsx` lines 190-196: the duplicate-name diagnostic — count each
name into a record (insertion-ordered, first occurrence first) and keep
the names seen more than once. -/
def duplicateNames (names : List String) : List String :=
  let uniq := names.foldl (fun a n => setKey a n (lookupD a n 0 + 1)) []
  (uniq.filter (fun p => 1 < p.2)).map Prod.fst

/-- The size of `new Set(names)`: the number of distinct names. -/
def distinctCount (names : List String) : Nat :=
  names.dedup.length

/-- Source `layout.tsx` lines 184-236, `combineLayouts`: reject duplicate
constituent names with `COMBINED_LAYOUT_NAME_CONFLICT` before any other
work; otherwise build the synthetic layout (whose `useData` the source
deletes; the composite is its options object, as `createLayout` only
closes over those). -/
def combineLayouts {C A : Type} (layouts : List (CreateLayoutOptions C A)) :
    Except LayoutError (CreateLayoutOptions C A) :=
  let layoutNames := layouts.map (fun l => l.name)
  if distinctCount layoutNames ≠ layoutNames.length then
    .error (.combinedLayoutNameConflict (duplicateNames layoutNames))
  else
    .ok
      { name := "__combined(" ++ String.intercalate ";" layoutNames ++ ")",
        getLayout := some (combinedGetLayout layouts),
        getData := some (combinedGetData layouts) }

/-- The number of fields of an association list carrying a given key. -/
def countKey {α : Type} (fs : List (String × α)) (k : String) : Nat :=
  (fs.map Prod.fst).count k

theorem lookupD_setKey_self {α : Type} (fs : List (String × α)) (k : String) (v d : α) :
    lookupD (setKey fs k v) k d = v := by
  induction fs with
  | nil => simp [setKey, lookupD]
  | cons p fs ih =>
    by_cases h : p.1 = k
    · simp [setKey, h, lookupD]
    · simp [setKey, h, lookupD, ih]

theorem lookupD_setKey_ne {α : Type} (fs : List (String × α)) (k k' : String) (v d : α)
    (h : k' ≠ k) : lookupD (setKey fs k v) k' d = lookupD fs k' d := by
  have hks : ¬(k = k') := fun e => h e.symm
  induction fs with
  | nil => simp [setKey, lookupD, hks]
  | cons p fs ih =>
    by_cases hp : p.1 = k
    · subst hp
      simp [setKey, lookupD, hks]
    · by_cases hk' : p.1 = k'
      · simp [setKey, hp, lookupD, hk', h, hks]
      · simp [setKey, hp, lookupD, hk', h, hks, ih]

theorem map_fst_setKey {α : Type} (fs : List (String × α)) (k : String) (v : α) :
    (setKey fs k v).map Prod.fst =
      if k ∈ fs.map Prod.fst then fs.map Prod.fst else fs.map Prod.fst ++ [k] := by
  induction fs with
  | nil => simp [setKey]
  | cons p fs ih =>
    by_cases h : p.1 = k
    · simp [setKey, h]
    · have : ¬(k = p.1) := fun e => h e.symm
      by_cases hm : k ∈ fs.map Prod.fst
      · simp [setKey, h, ih, hm, this]
      · simp [setKey, h, ih, hm, this]

theorem keysNodup_setKey {α : Type} (fs : List (String × α)) (k : String) (v : α)
    (hnd : keysNodup fs) : keysNodup (setKey fs k v) := by
  unfold keysNodup at *
  rw [map_fst_setKey]
  by_cases hm : k ∈ fs.map Prod.fst
  · simpa [hm] using hnd
  · simp [hm, List.nodup_append, hnd, List.disjoint_singleton]

theorem countKey_setKey_self {α : Type} (fs : List (String × α)) (k : String) (v : α)
    (hnd : keysNodup fs) : countKey (setKey fs k v) k = 1 := by
  have h1 : keysNodup (setKey fs k v) := keysNodup_setKey fs k v hnd
  have h2 : k ∈ (setKey fs k v).map Prod.fst := by
    rw [map_fst_setKey]
    by_cases hm : k ∈ fs.map Prod.fst <;> simp [hm]
  exact List.count_eq_one_of_mem h1 h2

theorem lookupD_eq_default_of_not_mem {α : Type} (fs : List (String × α)) (k : String)
    (d : α) (h : k ∉ fs.map Prod.fst) : lookupD fs k d = d := by
  induction fs with
  | nil => rfl
  | cons p fs ih =>
    simp only [List.map_cons, List.mem_cons, not_or] at h
    have : ¬(p.1 = k) := fun e => h.1 (e ▸ rfl)
    simp only [lookupD, this, if_false]
    exact ih h.2

theorem lookupD_eq_of_mem {α : Type} (fs : List (String × α)) (k : String) (v : α)
    (d : α) (hnd : keysNodup fs) (h : (k, v) ∈ fs) : lookupD fs k d = v := by
  induction fs with
  | nil => cases h
  | cons p fs ih =>
    unfold keysNodup at hnd
    simp only [List.map_cons, List.nodup_cons] at hnd
    rcases List.mem_cons.mp h with h1 | h1
    · simp [lookupD, ← h1]
    · have hne : ¬(p.1 = k) := by
        intro e
        exact hnd.1 (e ▸ (List.mem_map.mpr ⟨(k, v), h1, rfl⟩))
      simp only [lookupD, hne, if_false]
      exact ih hnd.2 h1

theorem mem_of_lookupD_ne {α : Type} (fs : List (String × α)) (k : String) (d : α)
    (h : lookupD fs k d ≠ d) : (k, lookupD fs k d) ∈ fs := by
  induction fs with
  | nil => exact absurd rfl h
  | cons p fs ih =>
    by_cases hp : p.1 = k
    · simp only [lookupD, hp, if_true]
      exact List.mem_cons.mpr (.inl (by rw [← hp]))
    · simp only [lookupD, hp, if_false] at h ⊢
      exact List.mem_cons.mpr (.inr (ih h))

theorem getKey_foldlKV_not_mem {β : Type} (xs : List β) (keyf : β → String)
    (valf : β → Value) (base : List (String × Value)) (k : String)
    (h : k ∉ xs.map keyf) :
    getKey (xs.foldl (fun acc x => setKey acc (keyf x) (valf x)) base) k = getKey base k := by
  induction xs generalizing base with
  | nil => rfl
  | cons q xs ih =>
    simp only [List.map_cons, List.mem_cons, not_or] at h
    simp only [List.foldl_cons]
    rw [ih (setKey base (keyf q) (valf q)) h.2]
    exact lookupD_setKey_ne base (keyf q) k (valf q) .vUndefined h.1

theorem getKey_foldlKV_mem {β : Type} (xs : List β) (keyf : β → String)
    (valf : β → Value) (base : List (String × Value)) (x : β)
    (hnd : (xs.map keyf).Nodup) (h : x ∈ xs) :
    getKey (xs.foldl (fun acc y => setKey acc (keyf y) (valf y)) base) (keyf x) = valf x := by
  induction xs generalizing base with
  | nil => cases h
  | cons q xs ih =>
    simp only [List.map_cons, List.nodup_cons] at hnd
    simp only [List.foldl_cons]
    rcases List.mem_cons.mp h with h1 | h1
    · subst h1
      rw [getKey_foldlKV_not_mem xs keyf valf _ (keyf x) hnd.1]
      exact lookupD_setKey_self base (keyf x) (valf x) .vUndefined
    · exact ih _ hnd.2 h1

theorem keysNodup_foldlKV {α β : Type} (xs : List β) (keyf : β → String)
    (valf : β → α) (base : List (String × α)) (hnd : keysNodup base) :
    keysNodup (xs.foldl (fun acc x => setKey acc (keyf x) (valf x)) base) := by
  induction xs generalizing base with
  | nil => exact hnd
  | cons q xs ih => exact ih _ (keysNodup_setKey base (keyf q) (valf q) hnd)

theorem mem_map_fst_foldlKV {α β : Type} (xs : List β) (keyf : β → String)
    (valf : β → α) (base : List (String × α)) (k : String)
    (h : k ∈ (xs.foldl (fun acc x => setKey acc (keyf x) (valf x)) base).map Prod.fst) :
    k ∈ base.map Prod.fst ∨ k ∈ xs.map keyf := by
  induction xs generalizing base with
  | nil => exact .inl h
  | cons q xs ih =>
    simp only [List.foldl_cons] at h
    rcases ih _ h with h1 | h1
    · rw [map_fst_setKey] at h1
      by_cases hm : keyf q ∈ base.map Prod.fst
      · simp only [hm, if_true] at h1
        exact .inl h1
      · simp only [hm, if_false, List.mem_append, List.mem_singleton] at h1
        rcases h1 with h2 | h2
        · exact .inl h2
        · exact .inr (List.mem_cons.mpr (.inl h2))
    · exact .inr (List.mem_cons.mpr (.inr h1))

theorem getKey_jsSpread_not_mem (base : List (String × Value)) (v : Value) (k : String)
    (h : k ∉ topKeys v) : getKey (jsSpread base v) k = getKey base k := by
  cases v with
  | vObj fs => exact getKey_foldlKV_not_mem fs Prod.fst Prod.snd base k h
  | vNull => rfl
  | vUndefined => rfl
  | vBool b => rfl
  | vNum n => rfl
  | vStr s => rfl

theorem getKey_jsSpread_mem (base : List (String × Value)) (fs : List (String × Value))
    (k : String) (v : Value) (hnd : keysNodup fs) (h : (k, v) ∈ fs) :
    getKey (jsSpread base (.vObj fs)) k = v :=
  getKey_foldlKV_mem fs Prod.fst Prod.snd base (k, v) hnd h

theorem getKey_jsSpread_nil (fs : List (String × Value)) (k : String)
    (hnd : keysNodup fs) : getKey (jsSpread [] (.vObj fs)) k = getKey fs k := by
  by_cases hm : k ∈ fs.map Prod.fst
  · rcases List.mem_map.mp hm with ⟨p, hp, hfst⟩
    have hpm : (k, p.2) ∈ fs := by
      have : p = (k, p.2) := by
        cases p
        simp only at hfst
        simp [hfst]
      exact this ▸ hp
    rw [getKey_jsSpread_mem [] fs k p.2 hnd hpm]
    exact (lookupD_eq_of_mem fs k p.2 .vUndefined hnd hpm).symm
  · rw [getKey_jsSpread_not_mem [] (.vObj fs) k hm]
    exact (lookupD_eq_default_of_not_mem fs k .vUndefined hm).symm

theorem layoutKey_injective : Function.Injective layoutKey := by
  intro n1 n2 h
  have h2 := congrArg String.data h
  simp only [layoutKey, String.data_append] at h2
  exact String.ext (List.append_cancel_left h2)

theorem resolveInOrder_foldl (ps : Nat → Value) (order : List Nat)
    (acc : Nat → Option Value) (j : Nat) :
    (order.foldl (fun a i => Function.update a i (some (ps i))) acc) j
      = if j ∈ order then some (ps j) else acc j := by
  induction order generalizing acc with
  | nil => simp
  | cons a order ih =>
    simp only [List.foldl_cons]
    rw [ih]
    by_cases hm : j ∈ order
    · simp [hm, List.mem_cons]
    · by_cases ha : j = a
      · subst ha
        simp [hm, Function.update_same, List.mem_cons]
      · simp [hm, ha, Function.update_noteq ha]

theorem resolveInOrder_eq (ps : Nat → Value) (order : List Nat) (j : Nat)
    (h : j ∈ order) : resolveInOrder ps order j = some (ps j) := by
  unfold resolveInOrder
  rw [resolveInOrder_foldl]
  simp [h]

theorem lookupD_countFold (names : List String) (a : List (String × Nat)) (n : String) :
    lookupD (names.foldl (fun a m => setKey a m (lookupD a m 0 + 1)) a) n 0
      = lookupD a n 0 + names.count n := by
  induction names generalizing a with
  | nil => simp [List.count_nil]
  | cons m names ih =>
    simp only [List.foldl_cons]
    rw [ih]
    by_cases hnm : n = m
    · subst hnm
      rw [lookupD_setKey_self]
      simp [List.count_cons]
      omega
    · rw [lookupD_setKey_ne a m n _ 0 hnm]
      simp [List.count_cons, hnm]

theorem keysNodup_countFold (names : List String) (a : List (String × Nat))
    (hnd : keysNodup a) :
    keysNodup (names.foldl (fun a m => setKey a m (lookupD a m 0 + 1)) a) := by
  induction names generalizing a with
  | nil => exact hnd
  | cons m names ih => exact ih _ (keysNodup_setKey a m _ hnd)

theorem dedup_length_eq_iff_nodup (names : List String) :
    distinctCount names = names.length ↔ names.Nodup := by
  constructor
  · intro h
    have hsub : names.dedup.Sublist names := names.dedup_sublist
    have : names.dedup = names := hsub.eq_of_length h
    rw [← this]
    exact names.nodup_dedup
  · intro h
    rw [distinctCount, h.dedup]

theorem mem_duplicateNames (names : List String) (n : String) :
    n ∈ duplicateNames names ↔ 2 ≤ names.count n := by
  have hnd : keysNodup (names.foldl (fun a m => setKey a m (lookupD a m 0 + 1)) []) :=
    keysNodup_countFold names [] (by simp [keysNodup])
  constructor
  · intro h
    simp only [duplicateNames, List.mem_map] at h
    rcases h with ⟨p, hp, hfst⟩
    rw [List.mem_filter] at hp
    have hval : lookupD (names.foldl (fun a m => setKey a m (lookupD a m 0 + 1)) []) p.1 0
        = p.2 := lookupD_eq_of_mem _ p.1 p.2 0 hnd hp.1
    rw [lookupD_countFold] at hval
    simp only [lookupD] at hval
    have hlt : 1 < p.2 := by simpa using hp.2
    subst hfst
    omega
  · intro h
    have hval : lookupD (names.foldl (fun a m => setKey a m (lookupD a m 0 + 1)) []) n 0
        = names.count n := by
      rw [lookupD_countFold]
      simp [lookupD]
    have hne : lookupD (names.foldl (fun a m => setKey a m (lookupD a m 0 + 1)) []) n 0 ≠ 0 := by
      omega
    have hmem := mem_of_lookupD_ne _ n 0 hne
    refine List.mem_map.mpr ⟨(n, lookupD (names.foldl (fun a m => setKey a m (lookupD a m 0 + 1)) []) n 0), List.mem_filter.mpr ⟨hmem, ?_⟩, rfl⟩
    simp only [decide_eq_true_eq]
    omega

theorem jsCoalesce_nullish (a b : Value) (h : isNullish a = true) :
    jsCoalesce a b = b := by
  unfold jsCoalesce
  rw [h]
  simp

theorem jsCoalesce_not_nullish (a b : Value) (h : isNullish a = false) :
    jsCoalesce a b = a := by
  unfold jsCoalesce
  rw [h]
  simp

theorem jsOptIndex_nullish (a : Value) (k : String) (h : isNullish a = true) :
    jsOptIndex a k = .vUndefined := by
  unfold jsOptIndex
  rw [h]
  simp

theorem jsOptIndex_not_nullish (a : Value) (k : String) (h : isNullish a = false) :
    jsOptIndex a k = jsIndex a k := by
  unfold jsOptIndex
  rw [h]
  simp

theorem jsIndex_not_mem (v : Value) (k : String) (h : k ∉ topKeys v) :
    jsIndex v k = .vUndefined := by
  cases v with
  | vObj fs => exact lookupD_eq_default_of_not_mem fs k .vUndefined h
  | vNull => rfl
  | vUndefined => rfl
  | vBool b => rfl
  | vNum n => rfl
  | vStr s => rfl

theorem storedEntry_none {C A : Type} (opts : CreateLayoutOptions C A) (ctx : C)
    (h : opts.getData = none) : storedEntry opts ctx = .vNull := by
  simp only [storedEntry, runGetData, h]
  rfl

theorem storedEntry_nullish {C A : Type} (opts : CreateLayoutOptions C A)
    (f : C → Value) (ctx : C) (h : opts.getData = some f)
    (hn : isNullish (f ctx) = true) : storedEntry opts ctx = .vNull := by
  simp only [storedEntry, runGetData, h]
  rw [jsOptIndex_nullish _ _ hn, jsCoalesce_nullish _ _ hn]
  rfl

theorem storedEntry_plain {C A : Type} (opts : CreateLayoutOptions C A)
    (f : C → Value) (ctx : C) (h : opts.getData = some f)
    (hn : isNullish (f ctx) = false)
    (hk : layoutKey opts.name ∉ topKeys (f ctx)) : storedEntry opts ctx = f ctx := by
  simp only [storedEntry, runGetData, h]
  rw [jsOptIndex_not_nullish _ _ hn, jsIndex_not_mem _ _ hk,
    jsCoalesce_nullish Value.vUndefined _ rfl, jsCoalesce_not_nullish _ _ hn]

theorem storedEntry_selfkey {C A : Type} (opts : CreateLayoutOptions C A)
    (f : C → Value) (fs : List (String × Value)) (ctx : C)
    (h : opts.getData = some f) (hfs : f ctx = .vObj fs)
    (hnn : isNullish (getKey fs (layoutKey opts.name)) = false) :
    storedEntry opts ctx = getKey fs (layoutKey opts.name) := by
  simp only [storedEntry, runGetData, h]
  rw [hfs, jsOptIndex_not_nullish (Value.vObj fs) _ rfl]
  exact jsCoalesce_not_nullish _ _ hnn

theorem pageProps_wrapGetStaticProps {C A : Type} (opts : CreateLayoutOptions C A)
    (wrapped : C → Value) (ctx : C) :
    pagePropsOf (wrapGetStaticProps opts wrapped ctx)
      = setKey
          (jsSpread []
            (jsCoalesce (jsIndex (jsCoalesce (wrapped ctx) (Value.vObj [])) "props")
              (Value.vObj [])))
          (layoutKey opts.name) (storedEntry opts ctx) := by
  unfold pagePropsOf
  have h1 : jsIndex (wrapGetStaticProps opts wrapped ctx) "props"
      = Value.vObj (setKey
          (jsSpread []
            (jsCoalesce (jsIndex (jsCoalesce (wrapped ctx) (Value.vObj [])) "props")
              (Value.vObj [])))
          (layoutKey opts.name) (storedEntry opts ctx)) := by
    simp only [wrapGetStaticProps]
    exact lookupD_setKey_self _ "props" _ Value.vUndefined
  rw [h1]

theorem getKey_pageProps {C A : Type} (opts : CreateLayoutOptions C A)
    (wrapped : C → Value) (ctx : C) :
    getKey (pagePropsOf (wrapGetStaticProps opts wrapped ctx)) (layoutKey opts.name)
      = storedEntry opts ctx := by
  rw [pageProps_wrapGetStaticProps]
  exact lookupD_setKey_self _ _ _ Value.vUndefined

theorem isCombinedLayout_append (s : String) :
    isCombinedLayout ("__combined(" ++ s) = true := by
  unfold isCombinedLayout
  rw [ List.isPrefixOf_iff_prefix, String.data_append]
  exact List.IsPrefix.trans (by decide) ( List.prefix_append _ _)

theorem combineLayouts_ok_name {C A : Type} (layouts : List (CreateLayoutOptions C A))
    (comp : CreateLayoutOptions C A) (h : combineLayouts layouts = .ok comp) :
    comp.name = "__combined("
      ++ String.intercalate ";" (layouts.map (fun l => l.name)) ++ ")" := by
  by_cases hc : distinctCount (layouts.map (fun l => l.name))
      ≠ (layouts.map (fun l => l.name)).length
  · simp only [combineLayouts] at h
    rw [if_pos hc] at h
    cases h
  · simp only [combineLayouts] at h
    rw [if_neg hc] at h
    cases h
    rfl

theorem isCombinedLayout_of_ok {C A : Type} (layouts : List (CreateLayoutOptions C A))
    (comp : CreateLayoutOptions C A) (h : combineLayouts layouts = .ok comp) :
    isCombinedLayout comp.name = true := by
  rw [combineLayouts_ok_name layouts comp h, String.append_assoc]
  exact isCombinedLayout_append _

/-- Claim C3: the render wrapper of the composite folds the constituents
right-to-left seeded with the page content — the first constituent wraps
outermost, each wrapper receives its own slice of the merged data looked
up by its namespace key, and a constituent without a wrapper passes the
content through unchanged. -/
theorem claim_C3 : ∀ (C A : Type) (l1 : CreateLayoutOptions C A)
    (rest : List (CreateLayoutOptions C A)) (page : A) (data : Value),
    (∀ g, l1.getLayout = some g →
      combinedGetLayout (l1 :: rest) page data
        = g (combinedGetLayout rest page data) (jsIndex data (layoutKey l1.name)))
    ∧ (l1.getLayout = none →
      combinedGetLayout (l1 :: rest) page data = combinedGetLayout rest page data)
    ∧ combinedGetLayout ([] : List (CreateLayoutOptions C A)) page data = page := by
  intro C A l1 rest page data
  refine ⟨fun g hg => ?_, fun hg => ?_, rfl⟩
  · simp [combinedGetLayout, hg]
  · simp [combinedGetLayout, hg]

theorem claim_C3_witness :
    combinedGetLayout
        [({name := "a",
           getLayout := some (fun c d => Value.vObj [("p", c), ("d", d)])} :
          CreateLayoutOptions Unit Value)]
        (Value.vNum 0) (Value.vObj [("__layout:a", Value.vNum 5)])
      = Value.vObj
          [("p", combinedGetLayout ([] : List (CreateLayoutOptions Unit Value))
              (Value.vNum 0) (Value.vObj [("__layout:a", Value.vNum 5)])),
           ("d", jsIndex (Value.vObj [("__layout:a", Value.vNum 5)]) (layoutKey "a"))] :=
  (claim_C3 Unit Value _ [] _ _).1 _ rfl

/-- Claim C4: `combineLayouts` fails with `COMBINED_LAYOUT_NAME_CONFLICT`
exactly when a constituent name repeats — before any composite is built,
so no fetch or render work happens — and the duplicate list of the error holds
precisely the names occurring at least twice; with pairwise-distinct
names it succeeds. -/
theorem claim_C4 : ∀ (C A : Type) (layouts : List (CreateLayoutOptions C A)),
    (¬ (layouts.map (fun l => l.name)).Nodup →
      combineLayouts layouts
        = .error (.combinedLayoutNameConflict
            (duplicateNames (layouts.map (fun l => l.name))))
      ∧ ∀ n, n ∈ duplicateNames (layouts.map (fun l => l.name))
          ↔ 2 ≤ (layouts.map (fun l => l.name)).count n)
    ∧ ((layouts.map (fun l => l.name)).Nodup →
      ∃ comp, combineLayouts layouts = .ok comp) := by
  intro C A layouts
  constructor
  · intro hdup
    have hne : distinctCount (layouts.map (fun l => l.name))
        ≠ (layouts.map (fun l => l.name)).length := by
      intro he
      exact hdup ((dedup_length_eq_iff_nodup _).mp he)
    refine ⟨?_, fun n => mem_duplicateNames _ n⟩
    simp only [combineLayouts]
    rw [if_pos hne]
  · intro hnd
    have heq : distinctCount (layouts.map (fun l => l.name))
        = (layouts.map (fun l => l.name)).length :=
      (dedup_length_eq_iff_nodup _).mpr hnd
    exact ⟨_, by simp only [combineLayouts]; rw [if_neg (fun h => h heq)]⟩

theorem claim_C4_witness :
    combineLayouts
        [({name := "a"} : CreateLayoutOptions Unit Unit), {name := "a"}]
      = .error (.combinedLayoutNameConflict (duplicateNames ["a", "a"]))
    ∧ ("a" ∈ duplicateNames ["a", "a"] ↔ 2 ≤ (["a", "a"] : List String).count "a")
    ∧ ∃ comp, combineLayouts [({name := "a"} : CreateLayoutOptions Unit Unit), {name := "b"}]
        = .ok comp := by
  refine ⟨?_, ?_, ?_⟩
  · exact ((claim_C4 Unit Unit
      [({name := "a"} : CreateLayoutOptions Unit Unit), {name := "a"}]).1 (by decide)).1
  · exact ((claim_C4 Unit Unit
      [({name := "a"} : CreateLayoutOptions Unit Unit), {name := "a"}]).1 (by decide)).2 "a"
  · exact (claim_C4 Unit Unit
      [({name := "a"} : CreateLayoutOptions Unit Unit), {name := "b"}]).2 (by decide)

/-- Claim C6: a page wrapped by `wrapPage` throws
`LAYOUT_PROVIDER_NOT_IMPLEMENTED` when rendered outside the root
provider, renders the wrapped page unchanged with the same props inside
it, and carries the render-dispatch operation as metadata. -/
theorem claim_C6 : ∀ (C A : Type) (opts : CreateLayoutOptions C A)
    (page : List (String × Value) → A) (props : List (String × Value)),
    renderOutsideProvider (wrapPage opts page) props = .error .layoutProviderMissing
    ∧ LayoutProvider (wrapPage opts page) props = .ok (page props)
    ∧ (wrapPage opts page).getLayout = getLayoutDispatch opts :=
  fun _ _ _ _ _ => ⟨rfl, rfl, rfl⟩

/-- Claim C7: the published overlay preserves every ambient entry whose
key the layout does not write — a plain layout writes only its own
namespace key, and a combined layout writes only the keys of its
merged data of its constituents. -/
theorem claim_C7 : ∀ (C A : Type) (opts : CreateLayoutOptions C A)
    (currCtx : List (String × Value)) (layoutProps : Value) (k' : String),
    (isCombinedLayout opts.name = false → k' ≠ layoutKey opts.name →
      getKey (overlayCtx opts currCtx layoutProps) k' = getKey currCtx k')
    ∧ (isCombinedLayout opts.name = true → k' ∉ topKeys layoutProps →
      getKey (overlayCtx opts currCtx layoutProps) k' = getKey currCtx k')
    ∧ (∀ (layouts : List (CreateLayoutOptions C A)) (ctx : C),
      combineLayouts layouts = .ok opts →
      k' ∉ layouts.map (fun l => layoutKey l.name) →
      getKey (overlayCtx opts currCtx (combinedGetData layouts ctx)) k'
        = getKey currCtx k') := by
  intro C A opts currCtx layoutProps k'
  refine ⟨fun hc hk => ?_, fun hc hk => ?_, fun layouts ctx hok hk => ?_⟩
  · simp only [overlayCtx, hc, Bool.false_eq_true, if_false]
    exact lookupD_setKey_ne currCtx (layoutKey opts.name) k' layoutProps .vUndefined hk
  · simp only [overlayCtx, hc, if_true]
    exact getKey_jsSpread_not_mem currCtx layoutProps k' hk
  · simp only [overlayCtx, isCombinedLayout_of_ok layouts opts hok, if_true]
    apply getKey_jsSpread_not_mem
    intro hmem
    rcases mem_map_fst_foldlKV layouts (fun l => layoutKey l.name)
        (fun l => fetchSlice l ctx) [] k' hmem with h1 | h1
    · cases h1
    · exact hk h1

theorem claim_C7_witness :
    getKey
        (overlayCtx ({name := "a"} : CreateLayoutOptions Unit Unit)
          [("other", Value.vNum 9)] (Value.vNum 5)) "other"
      = getKey [("other", Value.vNum 9)] "other"
    ∧ getKey
        (overlayCtx ({name := "__combinedX"} : CreateLayoutOptions Unit Unit)
          [("other", Value.vNum 9)] (Value.vObj [("inner", Value.vNum 1)])) "other"
      = getKey [("other", Value.vNum 9)] "other"
    ∧ getKey
        (overlayCtx
          ({name := "__combined(b)",
            getLayout := some (combinedGetLayout
              [({name := "b"} : CreateLayoutOptions Unit Unit)]),
            getData := some (combinedGetData
              [({name := "b"} : CreateLayoutOptions Unit Unit)])} :
            CreateLayoutOptions Unit Unit)
          [("other", Value.vNum 9)]
          (combinedGetData [({name := "b"} : CreateLayoutOptions Unit Unit)] ())) "other"
      = getKey [("other", Value.vNum 9)] "other" :=
  ⟨(claim_C7 Unit Unit _ _ _ _).1 (by decide) (by decide),
   (claim_C7 Unit Unit _ _ _ _).2.1 (by decide) (by decide),
   (claim_C7 Unit Unit _ _ (Value.vNull) _).2.2
     [({name := "b"} : CreateLayoutOptions Unit Unit)] () rfl (by decide)⟩

/-- Claim C8: the namespacing function is the deterministic
`"__layout:" + name`, distinct names yield distinct keys, and storing a
value under the key of a name then reading it back by the same name returns
that value. -/
theorem claim_C8 :
    (∀ name : String, layoutKey name = "__layout:" ++ name)
    ∧ (∀ n1 n2 : String, n1 ≠ n2 → layoutKey n1 ≠ layoutKey n2)
    ∧ (∀ (fs : List (String × Value)) (name : String) (v : Value),
        getKey (setKey fs (layoutKey name) v) (layoutKey name) = v) :=
  ⟨fun _ => rfl,
   fun _ _ h he => h (layoutKey_injective he),
   fun fs name v => lookupD_setKey_self fs (layoutKey name) v .vUndefined⟩

theorem claim_C8_witness :
    layoutKey "alpha" ≠ layoutKey "beta"
    ∧ getKey (setKey [] (layoutKey "alpha") (Value.vNum 3)) (layoutKey "alpha")
        = Value.vNum 3 :=
  ⟨claim_C8.2.1 "alpha" "beta" (by decide), claim_C8.2.2 [] "alpha" (Value.vNum 3)⟩

/-- Claim C9: the static-props wrapper and the server-side-props wrapper
compute the same merged result on the same inputs. -/
theorem claim_C9 : ∀ (C A : Type) (opts : CreateLayoutOptions C A)
    (wrapped : C → Value) (ctx : C),
    wrapGetStaticProps opts wrapped ctx = wrapGetServerSideProps opts wrapped ctx :=
  fun _ _ _ _ _ => rfl

/-- Claim C1, as stated, is false: when the `getData` result is an object
that itself contains the own namespace key of the layout, line 112 stores the
value of the result at that key, not the result itself.  Here `getData`
returns `{"__layout:a": 7}` and the stored entry is `7`. -/
theorem claim_C1_counterexample :
    jsIndex (jsIndex (wrapGetStaticProps
        ({name := "a",
          getData := some (fun _ => Value.vObj [("__layout:a", Value.vNum 7)])} :
          CreateLayoutOptions Unit Unit)
        defaultGetProps ()) "props") "__layout:a"
      = Value.vNum 7
    ∧ Value.vNum 7 ≠ Value.vObj [("__layout:a", Value.vNum 7)] :=
  ⟨rfl, fun h => Value.noConfusion h⟩

theorem keysNodup_jsSpread_nil (v : Value) : keysNodup (jsSpread [] v) := by
  cases v with
  | vObj fs => exact keysNodup_foldlKV fs Prod.fst Prod.snd [] List.nodup_nil
  | vNull => exact List.nodup_nil
  | vUndefined => exact List.nodup_nil
  | vBool b => exact List.nodup_nil
  | vNum n => exact List.nodup_nil
  | vStr s => exact List.nodup_nil

/-- Claim C1 (amended): for every layout and every base fetch result, the
wrapped fetch hands the page a `props` bag holding exactly one entry
under the namespace key of the layout, whose value is the `getData`
result — except that a null/undefined result (or an absent `getData`) is
stored as `null`, and a result object carrying a non-nullish value under
the own key of the layout is stored as that inner value.  Every other
field of the base `props` bag is preserved when the base carries an
object `props` bag, and every other top-level field of the base result is
preserved when the base result is an object; a nullish base result or a
nullish/absent `props` field defaults to the empty bag (the `?? ` and
`props ?? ` fallbacks of lines 105 and 111), contributing no other
fields. -/
theorem claim_C1_amended : ∀ (C A : Type) (opts : CreateLayoutOptions C A)
    (wrapped : C → Value) (ctx : C),
    jsIndex (wrapGetStaticProps opts wrapped ctx) "props"
      = .vObj (pagePropsOf (wrapGetStaticProps opts wrapped ctx))
    ∧ getKey (pagePropsOf (wrapGetStaticProps opts wrapped ctx)) (layoutKey opts.name)
      = storedEntry opts ctx
    ∧ countKey (pagePropsOf (wrapGetStaticProps opts wrapped ctx)) (layoutKey opts.name) = 1
    ∧ (opts.getData = none → storedEntry opts ctx = .vNull)
    ∧ (∀ f, opts.getData = some f → isNullish (f ctx) = true →
        storedEntry opts ctx = .vNull)
    ∧ (∀ f, opts.getData = some f → isNullish (f ctx) = false →
        layoutKey opts.name ∉ topKeys (f ctx) → storedEntry opts ctx = f ctx)
    ∧ (∀ f fs, opts.getData = some f → f ctx = .vObj fs →
        isNullish (getKey fs (layoutKey opts.name)) = false →
        storedEntry opts ctx = getKey fs (layoutKey opts.name))
    ∧ (∀ bf bp, wrapped ctx = .vObj bf → getKey bf "props" = .vObj bp → keysNodup bp →
        ∀ k', k' ≠ layoutKey opts.name →
          getKey (pagePropsOf (wrapGetStaticProps opts wrapped ctx)) k' = getKey bp k')
    ∧ (∀ bf, wrapped ctx = .vObj bf → isNullish (getKey bf "props") = true →
        ∀ k', k' ≠ layoutKey opts.name →
          getKey (pagePropsOf (wrapGetStaticProps opts wrapped ctx)) k' = .vUndefined)
    ∧ (∀ bf, wrapped ctx = .vObj bf → keysNodup bf →
        ∀ k', k' ≠ "props" →
          jsIndex (wrapGetStaticProps opts wrapped ctx) k' = getKey bf k')
    ∧ (isNullish (wrapped ctx) = true →
        ∀ k', k' ≠ "props" →
          jsIndex (wrapGetStaticProps opts wrapped ctx) k' = .vUndefined) := by
  intro C A opts wrapped ctx
  refine ⟨?_, getKey_pageProps opts wrapped ctx, ?_,
    fun h => storedEntry_none opts ctx h,
    fun f h hn => storedEntry_nullish opts f ctx h hn,
    fun f h hn hk => storedEntry_plain opts f ctx h hn hk,
    fun f fs h hfs hnn => storedEntry_selfkey opts f fs ctx h hfs hnn,
    ?_, ?_, ?_, ?_⟩
  · rw [pageProps_wrapGetStaticProps]
    simp only [wrapGetStaticProps]
    exact lookupD_setKey_self _ "props" _ Value.vUndefined
  · rw [pageProps_wrapGetStaticProps]
    exact countKey_setKey_self _ _ _ (keysNodup_jsSpread_nil _)
  · intro bf bp hbf hbp hbpnd k' hk'
    have hstatic : jsCoalesce (wrapped ctx) (Value.vObj []) = Value.vObj bf := by
      rw [hbf]
      rfl
    have hpv : jsCoalesce (jsIndex (jsCoalesce (wrapped ctx) (Value.vObj [])) "props")
        (Value.vObj []) = Value.vObj bp := by
      rw [hstatic]
      show jsCoalesce (getKey bf "props") (Value.vObj []) = Value.vObj bp
      rw [hbp]
      rfl
    rw [pageProps_wrapGetStaticProps, hpv]
    have h3 : getKey (setKey (jsSpread [] (Value.vObj bp)) (layoutKey opts.name)
          (storedEntry opts ctx)) k'
        = getKey (jsSpread [] (Value.vObj bp)) k' :=
      lookupD_setKey_ne _ _ _ _ _ hk'
    rw [h3]
    exact getKey_jsSpread_nil bp k' hbpnd
  · intro bf hbf hnull k' hk'
    have hstatic : jsCoalesce (wrapped ctx) (Value.vObj []) = Value.vObj bf := by
      rw [hbf]
      rfl
    have hpv0 : jsCoalesce (jsIndex (jsCoalesce (wrapped ctx) (Value.vObj [])) "props")
        (Value.vObj []) = Value.vObj [] := by
      rw [hstatic]
      show jsCoalesce (getKey bf "props") (Value.vObj []) = Value.vObj []
      exact jsCoalesce_nullish _ _ hnull
    rw [pageProps_wrapGetStaticProps, hpv0]
    have h3 : getKey (setKey (jsSpread [] (Value.vObj [])) (layoutKey opts.name)
          (storedEntry opts ctx)) k'
        = getKey (jsSpread [] (Value.vObj [])) k' :=
      lookupD_setKey_ne _ _ _ _ _ hk'
    rw [h3]
    rfl
  · intro bf hbf hbfnd k' hk'
    have hstatic : jsCoalesce (wrapped ctx) (Value.vObj []) = Value.vObj bf := by
      rw [hbf]
      rfl
    have h2 : jsIndex (wrapGetStaticProps opts wrapped ctx) k'
        = getKey (jsSpread [] (jsCoalesce (wrapped ctx) (Value.vObj []))) k' := by
      simp only [wrapGetStaticProps]
      exact lookupD_setKey_ne _ _ _ _ _ hk'
    rw [h2, hstatic]
    exact getKey_jsSpread_nil bf k' hbfnd
  · intro hnull k' hk'
    have hstatic0 : jsCoalesce (wrapped ctx) (Value.vObj []) = Value.vObj [] :=
      jsCoalesce_nullish _ _ hnull
    have h2 : jsIndex (wrapGetStaticProps opts wrapped ctx) k'
        = getKey (jsSpread [] (jsCoalesce (wrapped ctx) (Value.vObj []))) k' := by
      simp only [wrapGetStaticProps]
      exact lookupD_setKey_ne _ _ _ _ _ hk'
    rw [h2, hstatic0]
    rfl

theorem claim_C1_amended_witness :
    getKey
        (pagePropsOf (wrapGetStaticProps
          ({name := "a", getData := some (fun _ => Value.vNum 5)} :
            CreateLayoutOptions Unit Unit)
          (fun _ => Value.vObj [("notFound", Value.vBool true)]) ()))
        (layoutKey "a")
      = storedEntry
          ({name := "a", getData := some (fun _ => Value.vNum 5)} :
            CreateLayoutOptions Unit Unit) ()
    ∧ countKey
        (pagePropsOf (wrapGetStaticProps
          ({name := "a", getData := some (fun _ => Value.vNum 5)} :
            CreateLayoutOptions Unit Unit)
          (fun _ => Value.vObj [("notFound", Value.vBool true)]) ()))
        (layoutKey "a") = 1
    ∧ storedEntry
        ({name := "a", getData := some (fun _ => Value.vNum 5)} :
          CreateLayoutOptions Unit Unit) ()
      = Value.vNum 5
    ∧ getKey
        (pagePropsOf (wrapGetStaticProps
          ({name := "a", getData := some (fun _ => Value.vNum 5)} :
            CreateLayoutOptions Unit Unit)
          (fun _ => Value.vObj [("notFound", Value.vBool true)]) ()))
        "extra"
      = Value.vUndefined
    ∧ jsIndex (wrapGetStaticProps
          ({name := "a", getData := some (fun _ => Value.vNum 5)} :
            CreateLayoutOptions Unit Unit)
          (fun _ => Value.vObj [("notFound", Value.vBool true)]) ()) "notFound"
      = getKey [("notFound", Value.vBool true)] "notFound"
    ∧ jsIndex (wrapGetStaticProps
          ({name := "a", getData := some (fun _ => Value.vNum 5)} :
            CreateLayoutOptions Unit Unit)
          (fun _ => Value.vNull) ()) "extra"
      = Value.vUndefined :=
  ⟨(claim_C1_amended Unit Unit
      ({name := "a", getData := some (fun _ => Value.vNum 5)} : CreateLayoutOptions Unit Unit)
      (fun _ => Value.vObj [("notFound", Value.vBool true)]) ()).2.1,
   (claim_C1_amended Unit Unit
      ({name := "a", getData := some (fun _ => Value.vNum 5)} : CreateLayoutOptions Unit Unit)
      (fun _ => Value.vObj [("notFound", Value.vBool true)]) ()).2.2.1,
   (claim_C1_amended Unit Unit
      ({name := "a", getData := some (fun _ => Value.vNum 5)} : CreateLayoutOptions Unit Unit)
      (fun _ => Value.vObj [("notFound", Value.vBool true)]) ()).2.2.2.2.2.1
      (fun _ => Value.vNum 5) rfl rfl (by decide),
   (claim_C1_amended Unit Unit
      ({name := "a", getData := some (fun _ => Value.vNum 5)} : CreateLayoutOptions Unit Unit)
      (fun _ => Value.vObj [("notFound", Value.vBool true)]) ()).2.2.2.2.2.2.2.2.1
      [("notFound", Value.vBool true)] rfl rfl "extra" (by decide),
   (claim_C1_amended Unit Unit
      ({name := "a", getData := some (fun _ => Value.vNum 5)} : CreateLayoutOptions Unit Unit)
      (fun _ => Value.vObj [("notFound", Value.vBool true)]) ()).2.2.2.2.2.2.2.2.2.1
      [("notFound", Value.vBool true)] rfl (by unfold keysNodup; decide)
      "notFound" (by decide),
   (claim_C1_amended Unit Unit
      ({name := "a", getData := some (fun _ => Value.vNum 5)} : CreateLayoutOptions Unit Unit)
      (fun _ => Value.vNull) ()).2.2.2.2.2.2.2.2.2.2
      rfl "extra" (by decide)⟩

/-- Claim C2: the `getData` of the composite merges the constituent results,
each keyed by the own namespace key of that constituent; a constituent without
`getData` contributes `null` under its key; and the value handed to the
merge for each slot is the own result of that slot under every completion
order (`Promise.all` stores results at input indices), so the merged
object does not depend on the order the fetches resolve. -/
theorem claim_C2 : ∀ (C A : Type) (layouts : List (CreateLayoutOptions C A)) (ctx : C),
    (layouts.map (fun l => l.name)).Nodup →
    (∀ l ∈ layouts,
      jsIndex (combinedGetData layouts ctx) (layoutKey l.name) = fetchSlice l ctx)
    ∧ (∀ l ∈ layouts, l.getData = none →
      jsIndex (combinedGetData layouts ctx) (layoutKey l.name) = .vNull)
    ∧ (∀ (order : List Nat), order.Perm (List.range layouts.length) →
      ∀ j, j < layouts.length →
        resolveInOrder (fun i => (layouts.map (fun l => fetchSlice l ctx)).getD i .vNull)
            order j
          = some ((layouts.map (fun l => fetchSlice l ctx)).getD j .vNull)) := by
  intro C A layouts ctx hnames
  have hkeys : (layouts.map (fun l => layoutKey l.name)).Nodup := by
    have h1 : (List.map layoutKey (layouts.map (fun l => l.name))).Nodup :=
      List.Nodup.map layoutKey_injective hnames
    rw [List.map_map] at h1
    exact h1
  have hmain : ∀ l ∈ layouts,
      jsIndex (combinedGetData layouts ctx) (layoutKey l.name) = fetchSlice l ctx := by
    intro l hl
    exact getKey_foldlKV_mem layouts (fun l => layoutKey l.name)
      (fun l => fetchSlice l ctx) [] l hkeys hl
  refine ⟨hmain, fun l hl hn => ?_, fun order hperm j hj => ?_⟩
  · rw [hmain l hl]
    unfold fetchSlice runGetData
    rw [hn]
    rfl
  · exact resolveInOrder_eq _ order j (hperm.mem_iff.mpr (List.mem_range.mpr hj))

theorem claim_C2_witness :
    jsIndex
        (combinedGetData
          [({name := "a", getData := some (fun _ => Value.vNum 1)} :
             CreateLayoutOptions Unit Unit), {name := "b"}] ())
        (layoutKey "a")
      = fetchSlice
          ({name := "a", getData := some (fun _ => Value.vNum 1)} :
            CreateLayoutOptions Unit Unit) ()
    ∧ jsIndex
        (combinedGetData
          [({name := "a", getData := some (fun _ => Value.vNum 1)} :
             CreateLayoutOptions Unit Unit), {name := "b"}] ())
        (layoutKey "b")
      = Value.vNull
    ∧ resolveInOrder
        (fun i => (([({name := "a", getData := some (fun _ => Value.vNum 1)} :
            CreateLayoutOptions Unit Unit), {name := "b"}].map
              (fun l => fetchSlice l ())).getD i .vNull))
        [1, 0] 0
      = some (([({name := "a", getData := some (fun _ => Value.vNum 1)} :
          CreateLayoutOptions Unit Unit), {name := "b"}].map
            (fun l => fetchSlice l ())).getD 0 .vNull) := by
  refine ⟨?_, ?_, ?_⟩
  · exact (claim_C2 Unit Unit
      [({name := "a", getData := some (fun _ => Value.vNum 1)} :
        CreateLayoutOptions Unit Unit), {name := "b"}] () (by decide)).1
      _ (List.mem_cons_self _ _)
  · exact (claim_C2 Unit Unit
      [({name := "a", getData := some (fun _ => Value.vNum 1)} :
        CreateLayoutOptions Unit Unit), {name := "b"}] () (by decide)).2.1
      _ (List.mem_cons.mpr (.inr (List.mem_cons_self _ _))) rfl
  · exact (claim_C2 Unit Unit
      [({name := "a", getData := some (fun _ => Value.vNum 1)} :
        CreateLayoutOptions Unit Unit), {name := "b"}] () (by decide)).2.2
      [1, 0] (by decide) 0 (by decide)

/-- Claim C5, as stated, is false: with `wrapPage` and the fetch wrapper
correctly applied but `getData` returning `null`, `useData` raises
`DATA_UNAVAILABLE` (line 136 tests the stored slice `== null`) instead of
returning the fetched `null`. -/
theorem claim_C5_counterexample :
    useData ({name := "a", getData := some (fun _ => Value.vNull)} :
        CreateLayoutOptions Unit Unit)
      (getLayoutDispatch
        ({name := "a", getData := some (fun _ => Value.vNull)} :
          CreateLayoutOptions Unit Unit)
        (fun _ => ())
        (pagePropsOf (wrapGetStaticProps
          ({name := "a", getData := some (fun _ => Value.vNull)} :
            CreateLayoutOptions Unit Unit)
          defaultGetProps ())) []).1 "/p"
      = .error (.dataUnavailable "a" "/p")
    ∧ useData ({name := "a", getData := some (fun _ => Value.vNull)} :
        CreateLayoutOptions Unit Unit)
      (getLayoutDispatch
        ({name := "a", getData := some (fun _ => Value.vNull)} :
          CreateLayoutOptions Unit Unit)
        (fun _ => ())
        (pagePropsOf (wrapGetStaticProps
          ({name := "a", getData := some (fun _ => Value.vNull)} :
            CreateLayoutOptions Unit Unit)
          defaultGetProps ())) []).1 "/p"
      ≠ .ok Value.vNull := by
  refine ⟨rfl, fun h => ?_⟩
  rw [show useData ({name := "a", getData := some (fun _ => Value.vNull)} :
        CreateLayoutOptions Unit Unit)
      (getLayoutDispatch
        ({name := "a", getData := some (fun _ => Value.vNull)} :
          CreateLayoutOptions Unit Unit)
        (fun _ => ())
        (pagePropsOf (wrapGetStaticProps
          ({name := "a", getData := some (fun _ => Value.vNull)} :
            CreateLayoutOptions Unit Unit)
          defaultGetProps ())) []).1 "/p"
      = .error (.dataUnavailable "a" "/p") from rfl] at h
  exact Except.noConfusion h

/-- Claim C5 (amended): `useData` raises `DATA_UNAVAILABLE` carrying the
layout name and the current location whenever the ambient context holds
no (or a nullish) slice under the key of the layout; and when `wrapPage` and
the fetch wrapper are correctly applied, it returns exactly the
`fetchData` result — provided the name of the layout does not start with
`__combined`, and the result is neither null/undefined nor an object
containing the own namespace key of the layout. -/
theorem claim_C5_amended : ∀ (C A : Type) (opts : CreateLayoutOptions C A)
    (f : C → Value) (ctx : C),
    (∀ (ctx0 : List (String × Value)) (path : String),
      isNullish (getKey ctx0 (layoutKey opts.name)) = true →
      useData opts ctx0 path = .error (.dataUnavailable opts.name path))
    ∧ (opts.getData = some f →
      isCombinedLayout opts.name = false →
      isNullish (f ctx) = false →
      layoutKey opts.name ∉ topKeys (f ctx) →
      ∀ (wrapped : C → Value) (comp : List (String × Value) → A)
        (currCtx : List (String × Value)) (path : String),
      useData opts
        (getLayoutDispatch opts comp
          (pagePropsOf (wrapGetStaticProps opts wrapped ctx)) currCtx).1 path
        = .ok (f ctx)) := by
  intro C A opts f ctx
  constructor
  · intro ctx0 path h
    simp only [useData]
    rw [h]
    simp
  · intro hf hcomb hnn hnk wrapped comp currCtx path
    have hentry : getKey (pagePropsOf (wrapGetStaticProps opts wrapped ctx))
        (layoutKey opts.name) = f ctx := by
      rw [getKey_pageProps]
      exact storedEntry_plain opts f ctx hf hnn hnk
    have hctx : (getLayoutDispatch opts comp
        (pagePropsOf (wrapGetStaticProps opts wrapped ctx)) currCtx).1
        = setKey currCtx (layoutKey opts.name) (f ctx) := by
      simp only [getLayoutDispatch, overlayCtx, hcomb, Bool.false_eq_true, if_false, hentry]
    rw [hctx]
    simp only [useData]
    have hget : getKey (setKey currCtx (layoutKey opts.name) (f ctx))
        (layoutKey opts.name) = f ctx := lookupD_setKey_self _ _ _ Value.vUndefined
    rw [hget, hnn]
    simp

theorem claim_C5_amended_witness :
    useData ({name := "a", getData := some (fun _ => Value.vNum 5)} :
        CreateLayoutOptions Unit Unit) [] "/p"
      = .error (.dataUnavailable "a" "/p")
    ∧ useData ({name := "a", getData := some (fun _ => Value.vNum 5)} :
        CreateLayoutOptions Unit Unit)
      (getLayoutDispatch
        ({name := "a", getData := some (fun _ => Value.vNum 5)} :
          CreateLayoutOptions Unit Unit)
        (fun _ => ())
        (pagePropsOf (wrapGetStaticProps
          ({name := "a", getData := some (fun _ => Value.vNum 5)} :
            CreateLayoutOptions Unit Unit)
          defaultGetProps ())) []).1 "/p"
      = .ok (Value.vNum 5) :=
  ⟨(claim_C5_amended Unit Unit
      ({name := "a", getData := some (fun _ => Value.vNum 5)} :
        CreateLayoutOptions Unit Unit)
      (fun _ => Value.vNum 5) ()).1 [] "/p" rfl,
   (claim_C5_amended Unit Unit
      ({name := "a", getData := some (fun _ => Value.vNum 5)} :
        CreateLayoutOptions Unit Unit)
      (fun _ => Value.vNum 5) ()).2 rfl (by decide) rfl (by decide)
      defaultGetProps (fun _ => ()) [] "/p"⟩

/-- Claim C10: a layout whose name starts with `__combined` — even a
plain layout that never went through `combineLayouts` — has its fetched
slice spread into the ambient data-context by the render dispatch rather
than stored under its own namespace key, so its own `useData` raises
`DATA_UNAVAILABLE` even with `wrapPage` and the fetch wrapper correctly
applied (provided the slice does not itself carry the own key of the layout
and the enclosing context holds none). -/
theorem claim_C10 : ∀ (C A : Type) (opts : CreateLayoutOptions C A) (ctx : C)
    (wrapped : C → Value) (comp : List (String × Value) → A)
    (currCtx : List (String × Value)) (path : String),
    isCombinedLayout opts.name = true →
    layoutKey opts.name ∉ topKeys (storedEntry opts ctx) →
    isNullish (getKey currCtx (layoutKey opts.name)) = true →
    (getLayoutDispatch opts comp
        (pagePropsOf (wrapGetStaticProps opts wrapped ctx)) currCtx).1
      = jsSpread currCtx (storedEntry opts ctx)
    ∧ useData opts
        (getLayoutDispatch opts comp
          (pagePropsOf (wrapGetStaticProps opts wrapped ctx)) currCtx).1 path
      = .error (.dataUnavailable opts.name path) := by
  intro C A opts ctx wrapped comp currCtx path hcomb hnk hnull
  have hctx : (getLayoutDispatch opts comp
      (pagePropsOf (wrapGetStaticProps opts wrapped ctx)) currCtx).1
      = jsSpread currCtx (storedEntry opts ctx) := by
    simp only [getLayoutDispatch, overlayCtx, hcomb, if_true, getKey_pageProps]
  refine ⟨hctx, ?_⟩
  rw [hctx]
  simp only [useData]
  rw [getKey_jsSpread_not_mem currCtx _ _ hnk, hnull]
  simp

theorem claim_C10_witness :
    (getLayoutDispatch
        ({name := "__combinedFoo",
          getData := some (fun _ => Value.vObj [("x", Value.vNum 1)])} :
          CreateLayoutOptions Unit Unit)
        (fun _ => ())
        (pagePropsOf (wrapGetStaticProps
          ({name := "__combinedFoo",
            getData := some (fun _ => Value.vObj [("x", Value.vNum 1)])} :
            CreateLayoutOptions Unit Unit)
          defaultGetProps ())) []).1
      = jsSpread []
          (storedEntry
            ({name := "__combinedFoo",
              getData := some (fun _ => Value.vObj [("x", Value.vNum 1)])} :
              CreateLayoutOptions Unit Unit) ())
    ∧ useData
        ({name := "__combinedFoo",
          getData := some (fun _ => Value.vObj [("x", Value.vNum 1)])} :
          CreateLayoutOptions Unit Unit)
        (getLayoutDispatch
          ({name := "__combinedFoo",
            getData := some (fun _ => Value.vObj [("x", Value.vNum 1)])} :
            CreateLayoutOptions Unit Unit)
          (fun _ => ())
          (pagePropsOf (wrapGetStaticProps
            ({name := "__combinedFoo",
              getData := some (fun _ => Value.vObj [("x", Value.vNum 1)])} :
              CreateLayoutOptions Unit Unit)
            defaultGetProps ())) []).1 "/p"
      = .error (.dataUnavailable "__combinedFoo" "/p") :=
  claim_C10 Unit Unit
    ({name := "__combinedFoo",
      getData := some (fun _ => Value.vObj [("x", Value.vNum 1)])} :
      CreateLayoutOptions Unit Unit)
    () defaultGetProps (fun _ => ()) [] "/p"
    (by decide) (by decide) rfl
